import Mathlib

/-!
# Verification of the bulk mail dispatch and validation pipeline

Shallow embedding of the Python sources (`send.py`, `verify.py`,
`batch_sender.py`, `newsletter_generator.py`) of the `mails` repository,
together with theorems settling the specification claims about them.

Machine-level side effects (sockets, DNS, the SMTP wire protocol, the file
system) are modelled by explicit oracle values describing the answers the
environment gives; the control flow of each embedded function follows the
Python source line by line.
-/

/-! ## String helpers

Embeddings of the Python string primitives used by the sources:
`str.strip()`, `str.lower()`, `str.strip('.')`, substring membership
(`'x' in s`), and `'@' in s`. -/

/-- Characters removed by Python `str.strip()` (ASCII whitespace). -/
def isPySpace (c : Char) : Bool :=
  c == ' ' || c == '\t' || c == '\n' || c == '\r' || c == '\x0b' || c == '\x0c'

/-- Remove the characters satisfying `p` from both ends of a character list. -/
def stripCharsList (p : Char → Bool) (l : List Char) : List Char :=
  ((l.dropWhile p).reverse.dropWhile p).reverse

/-- Embedding of Python `s.strip()`. -/
def pyStrip (s : String) : String := ⟨stripCharsList isPySpace s.data⟩

/-- Embedding of Python `s.lower()`. -/
def lowerStr (s : String) : String := ⟨s.data.map Char.toLower⟩

/-- Embedding of Python `s.strip('.')`. -/
def stripDots (s : String) : String := ⟨stripCharsList (fun c => c == '.') s.data⟩

/-- Embedding of Python `sub in s` (substring containment). -/
def hasSub (s sub : String) : Prop := sub.data <:+: s.data

instance (s sub : String) : Decidable (hasSub s sub) := List.decidableInfix _ _

/-! ## Delivery Response Classifier

`EmailVerifier.verify_smtp` (verify.py, lines 115–162) interprets the code
and message of the `RCPT TO` response.  The classification core
(lines 133–153) is a pure function of the numeric code and the decoded,
lowercased message text; we embed it as `classifyRcpt`. -/

/-- The four statuses `verify_smtp` can report for an RCPT response:
`"valid"`, `"over_quota"`, `"insufficient_storage"`, `"error"`. -/
inductive RcptCategory where
  | valid
  | over_quota
  | insufficient_storage
  | error
  deriving DecidableEq, Repr

/-- Embedding of the RCPT-response classification in
`EmailVerifier.verify_smtp` (verify.py lines 133–153):
`message_str = message.decode().lower()`, then in order
`code == 552 or 'quota' in message_str or 'over quota' in message_str`,
`code == 452 or 'insufficient' in message_str or 'storage' in message_str or
'disk' in message_str`, `code == 250`, otherwise a rejection error. -/
def classifyRcpt (code : Nat) (message : String) : RcptCategory :=
  if code = 552 ∨ hasSub (lowerStr message) "quota" ∨
      hasSub (lowerStr message) "over quota" then .over_quota
  else if code = 452 ∨ hasSub (lowerStr message) "insufficient" ∨
      hasSub (lowerStr message) "storage" ∨ hasSub (lowerStr message) "disk" then
    .insufficient_storage
  else if code = 250 then .valid
  else .error

/-- C1, counterexample: the claim "every status code in the 2xx range
classifies as Accepted regardless of the detail text" is false on the code.
Code 252 (a 2xx code) with a harmless detail is classified as a rejection
error, and code 250 with a detail mentioning a quota is classified as
over-quota rather than Accepted, because `verify_smtp` tests the quota and
storage keywords before it tests `code == 250`, and tests `code == 250`
rather than membership in the 2xx range. -/
theorem C1_counterexample :
    (200 ≤ 252 ∧ 252 ≤ 299 ∧ classifyRcpt 252 "Cannot VRFY user" ≠ RcptCategory.valid) ∧
    (200 ≤ 250 ∧ 250 ≤ 299 ∧
      classifyRcpt 250 "mailbox quota exceeded" = RcptCategory.over_quota) := by
  refine ⟨⟨by norm_num, by norm_num, by decide⟩, ⟨by norm_num, by norm_num, by decide⟩⟩

/-- C1 (amended): the classifier reports Accepted (`"valid"`) exactly when
the code is exactly 250 and the lowercased detail text contains none of the
keywords `quota`, `over quota`, `insufficient`, `storage`, `disk`; 2xx codes
other than 250 are never Accepted, and keyword matches take precedence over
the numeric code. -/
theorem C1_accepted_iff (code : Nat) (message : String) :
    classifyRcpt code message = RcptCategory.valid ↔
      (code = 250 ∧
        ¬ hasSub (lowerStr message) "quota" ∧
        ¬ hasSub (lowerStr message) "over quota" ∧
        ¬ hasSub (lowerStr message) "insufficient" ∧
        ¬ hasSub (lowerStr message) "storage" ∧
        ¬ hasSub (lowerStr message) "disk") := by
  unfold classifyRcpt
  split_ifs with h1 h2 h3
  · refine iff_of_false (by decide) ?_
    rintro ⟨hc, hq, hoq, hin, hst, hdk⟩
    subst hc
    rcases h1 with h | h | h
    · omega
    · exact hq h
    · exact hoq h
  · refine iff_of_false (by decide) ?_
    rintro ⟨hc, hq, hoq, hin, hst, hdk⟩
    subst hc
    rcases h2 with h | h | h | h
    · omega
    · exact hin h
    · exact hst h
    · exact hdk h
  · push_neg at h1 h2
    exact iff_of_true rfl ⟨h3, h1.2.1, h1.2.2, h2.2.1, h2.2.2.1, h2.2.2.2⟩
  · refine iff_of_false (by decide) ?_
    rintro ⟨hc, _, _, _, _, _⟩
    exact h3 hc

/-- C5, counterexample: the claim that the classifier returns
InsufficientStorage "exactly when the code is 452 or the detail contains a
storage/disk keyword" is false: for code 452 with detail `"quota"` the
condition holds (the code is 452), yet the classifier returns the over-quota
category, because the quota test runs first. -/
theorem C5_counterexample :
    classifyRcpt 452 "quota" = RcptCategory.over_quota ∧
    classifyRcpt 452 "quota" ≠ RcptCategory.insufficient_storage := by
  refine ⟨by decide, by decide⟩

/-- C5 (amended): the classifier returns over-quota exactly when the code is
552 or the lowercased detail contains a quota keyword; it returns
insufficient-storage exactly when the over-quota condition fails AND the
code is 452 or the lowercased detail contains an insufficient/storage/disk
keyword; and code 552 with detail "mailbox quota exceeded" classifies as
over-quota under the validation classifier. -/
theorem C5_resource_exhausted_iff (code : Nat) (message : String) :
    (classifyRcpt code message = RcptCategory.over_quota ↔
      (code = 552 ∨ hasSub (lowerStr message) "quota" ∨
        hasSub (lowerStr message) "over quota")) ∧
    (classifyRcpt code message = RcptCategory.insufficient_storage ↔
      (¬ (code = 552 ∨ hasSub (lowerStr message) "quota" ∨
            hasSub (lowerStr message) "over quota") ∧
        (code = 452 ∨ hasSub (lowerStr message) "insufficient" ∨
          hasSub (lowerStr message) "storage" ∨ hasSub (lowerStr message) "disk"))) ∧
    classifyRcpt 552 "mailbox quota exceeded" = RcptCategory.over_quota := by
  refine ⟨?_, ?_, by decide⟩
  · unfold classifyRcpt
    split_ifs with h1 h2 h3
    · exact iff_of_true rfl h1
    · exact iff_of_false (by decide) h1
    · exact iff_of_false (by decide) h1
    · exact iff_of_false (by decide) h1
  · unfold classifyRcpt
    split_ifs with h1 h2 h3
    · exact iff_of_false (by decide) (fun h => h.1 h1)
    · exact iff_of_true rfl ⟨h1, h2⟩
    · exact iff_of_false (by decide) (fun h => h2 h.2)
    · exact iff_of_false (by decide) (fun h => h2 h.2)

/-! ## Batching (C3)

`NewsletterBatchSender.create_batches` (batch_sender.py lines 188–197)
slices the email list into consecutive fixed-size batches:
`for i in range(0, len(emails), batch_size): batches.append(emails[i:i+batch_size])`.
The loop indices are `j * B` for `j < ⌈N / B⌉` and the Python slice
`emails[i:i+B]` is `(emails.drop i).take B`.  The batch-queueing loop in
`prepare_and_send_batches` (send.py lines 252–255) slices identically. -/

/-- Embedding of `NewsletterBatchSender.create_batches`. -/
def createBatches (emails : List String) (B : Nat) : List (List String) :=
  (List.range ((emails.length + B - 1) / B)).map (fun j => (emails.drop (j * B)).take B)

theorem createBatches_nil (B : Nat) : createBatches [] B = [] := by
  unfold createBatches
  have h : (List.length ([] : List String) + B - 1) / B = 0 := by
    rcases Nat.eq_zero_or_pos B with h | h
    · simp [h]
    · exact Nat.div_eq_of_lt (by simp; omega)
  rw [h]
  simp

theorem createBatches_cons {B : Nat} (hB : 0 < B) {l : List String} (hl : l ≠ []) :
    createBatches l B = l.take B :: createBatches (l.drop B) B := by
  have hlen : 1 ≤ l.length := List.length_pos.mpr hl
  have harith : (l.length + B - 1) / B = ((l.drop B).length + B - 1) / B + 1 := by
    rw [List.length_drop]
    rcases le_or_lt B l.length with h | h
    · have e1 : l.length + B - 1 = (l.length - 1) + B := by omega
      have e2 : (l.length - B) + B - 1 = l.length - 1 := by omega
      rw [e1, e2, Nat.add_div_right _ hB]
    · have e1 : l.length + B - 1 = (l.length - 1) + B := by omega
      have e2 : (l.length - B) + B - 1 = B - 1 := by omega
      rw [e1, e2, Nat.add_div_right _ hB,
        Nat.div_eq_of_lt (show l.length - 1 < B by omega),
        Nat.div_eq_of_lt (show B - 1 < B by omega)]
  unfold createBatches
  rw [harith, List.range_succ_eq_map, List.map_cons, List.map_map]
  refine congrArg₂ List.cons (by simp) ?_
  refine List.map_congr_left (fun j _ => ?_)
  simp only [Function.comp_apply, List.drop_drop]
  rw [show Nat.succ j * B = B + j * B by rw [Nat.succ_mul, Nat.add_comm]]

theorem createBatches_length (l : List String) (B : Nat) :
    (createBatches l B).length = (l.length + B - 1) / B := by
  unfold createBatches
  simp

theorem createBatches_flatten_aux {B : Nat} (hB : 0 < B) :
    ∀ (n : Nat) (l : List String), l.length ≤ n → (createBatches l B).flatten = l := by
  intro n
  induction n with
  | zero =>
    intro l hl
    have h : l = [] := by cases l <;> simp_all
    subst h
    simp [createBatches_nil]
  | succ n ih =>
    intro l hl
    rcases eq_or_ne l [] with rfl | hne
    · simp [createBatches_nil]
    · have h1 : 1 ≤ l.length := List.length_pos.mpr hne
      have hd : (l.drop B).length ≤ n := by
        rw [List.length_drop]
        omega
      rw [createBatches_cons hB hne, List.flatten_cons, ih (l.drop B) hd,
        List.take_append_drop]

theorem createBatches_full_aux {B : Nat} (hB : 0 < B) :
    ∀ (n : Nat) (l : List String), l.length ≤ n →
      ∀ i b, (createBatches l B)[i]? = some b →
        i + 1 < (createBatches l B).length → b.length = B := by
  intro n
  induction n with
  | zero =>
    intro l hl i b hb _
    have h : l = [] := by cases l <;> simp_all
    subst h
    rw [createBatches_nil] at hb
    simp at hb
  | succ n ih =>
    intro l hl i b hb hlt
    rcases eq_or_ne l [] with rfl | hne
    · rw [createBatches_nil] at hb
      simp at hb
    · have h1 : 1 ≤ l.length := List.length_pos.mpr hne
      rw [createBatches_cons hB hne] at hb hlt
      cases i with
      | zero =>
        rw [List.getElem?_cons_zero] at hb
        have hbe : b = l.take B := by
          injection hb with h
          exact h.symm
        subst hbe
        have hdne : l.drop B ≠ [] := by
          intro h
          rw [h, createBatches_nil] at hlt
          simp at hlt
        have hBlen : B < l.length := by
          have := List.length_pos.mpr hdne
          rw [List.length_drop] at this
          omega
        rw [List.length_take]
        omega
      | succ i =>
        rw [List.getElem?_cons_succ] at hb
        have hd : (l.drop B).length ≤ n := by
          rw [List.length_drop]
          omega
        refine ih (l.drop B) hd i b hb ?_
        simp only [List.length_cons] at hlt
        omega

/-- C3: for every recipient list of length `N` and positive batch size `B`,
`create_batches` produces exactly `⌈N/B⌉ = (N + B - 1) / B` batches, their
concatenation is the original list (order preserved, no duplicates, no
omissions), and every batch except possibly the final one has exactly `B`
recipients. -/
theorem C3_create_batches (l : List String) (B : Nat) (hB : 0 < B) :
    (createBatches l B).length = (l.length + B - 1) / B ∧
    (createBatches l B).flatten = l ∧
    (∀ i b, (createBatches l B)[i]? = some b →
      i + 1 < (createBatches l B).length → b.length = B) :=
  ⟨createBatches_length l B,
   createBatches_flatten_aux hB l.length l le_rfl,
   createBatches_full_aux hB l.length l le_rfl⟩

/-- Witness for C3 at a concrete input: three recipients, batch size two. -/
theorem C3_create_batches_witness :
    0 < 2 ∧
    ((createBatches ["a@x.de", "b@x.de", "c@x.de"] 2).length = (3 + 2 - 1) / 2 ∧
      (createBatches ["a@x.de", "b@x.de", "c@x.de"] 2).flatten =
        ["a@x.de", "b@x.de", "c@x.de"] ∧
      (∀ i b, (createBatches ["a@x.de", "b@x.de", "c@x.de"] 2)[i]? = some b →
        i + 1 < (createBatches ["a@x.de", "b@x.de", "c@x.de"] 2).length →
          b.length = 2)) :=
  ⟨by decide, C3_create_batches ["a@x.de", "b@x.de", "c@x.de"] 2 (by decide)⟩

/-! ## Batch dispatch loop with checkpointing (C2, C8)

`NewsletterBatchSender.send_all_newsletters` (batch_sender.py lines
230–273) iterates `enumerate(batches[start_batch:], start_batch)`; each
iteration sends one batch (adding that batch's sent/failed outcome to the
shared counters inside `send_batch`) and then calls `save_progress`.
`save_progress` (lines 199–207) opens and writes the checkpoint file with
no exception handling, so a write failure raises out of the loop and aborts
the run.  `load_progress` (lines 209–228) supplies the
`(completed_batches, sent, failed)` triple used on resume. -/

/-- The `(completed_batches, sent, failed)` triple parsed by
`NewsletterBatchSender.load_progress` from `sending_progress.txt`. -/
structure Checkpoint where
  completed : Nat
  sent : Nat
  failed : Nat
  deriving DecidableEq, Repr

/-- Observable result of a dispatch run: `crashed` holds the 0-based index
of the batch whose checkpoint write raised (if any), `sent`/`failed` are the
final counter values, and `processed` lists the 0-based indices of the
batches actually sent. -/
structure SendRun where
  crashed : Option Nat
  sent : Nat
  failed : Nat
  processed : List Nat
  deriving DecidableEq, Repr

/-- Embedding of the dispatch loop of `send_all_newsletters`
(batch_sender.py lines 254–273): `outcomes` lists the `(sent, failed)`
outcome of each remaining batch, `i` is the 0-based index of the next
batch, and `s`, `f` are the counters carried in.  `saveOk i = false` means
the checkpoint write after batch `i` raises (`save_progress` performs
unguarded file I/O); the batch itself has been sent by then, the exception
propagates, and the loop stops. -/
def runBatches (saveOk : Nat → Bool) : List (Nat × Nat) → Nat → Nat → Nat → SendRun
  | [], _, s, f => ⟨none, s, f, []⟩
  | o :: rest, i, s, f =>
    if saveOk i then
      let r := runBatches saveOk rest (i + 1) (s + o.1) (f + o.2)
      ⟨r.crashed, r.sent, r.failed, i :: r.processed⟩
    else ⟨some i, s + o.1, f + o.2, [i]⟩

/-- Embedding of `NewsletterBatchSender.send_all_newsletters` together with
`load_progress`: on `resume`, the counters start from the checkpoint's
sent/failed values and the loop starts at batch index `cp.completed`
(`batches[start_batch:]` with `enumerate(..., start_batch)`); otherwise
everything starts at zero. -/
def sendAllNewsletters (saveOk : Nat → Bool) (outcomes : List (Nat × Nat))
    (resume : Bool) (cp : Checkpoint) : SendRun :=
  runBatches saveOk (outcomes.drop (if resume then cp.completed else 0))
    (if resume then cp.completed else 0)
    (if resume then cp.sent else 0) (if resume then cp.failed else 0)

/-- Total messages reported sent over a list of per-batch outcomes. -/
def sumSent (l : List (Nat × Nat)) : Nat := (l.map Prod.fst).sum

/-- Total messages reported failed over a list of per-batch outcomes. -/
def sumFailed (l : List (Nat × Nat)) : Nat := (l.map Prod.snd).sum

theorem runBatches_ok (outcomes : List (Nat × Nat)) :
    ∀ (i s f : Nat), runBatches (fun _ => true) outcomes i s f =
      ⟨none, s + sumSent outcomes, f + sumFailed outcomes,
        List.range' i outcomes.length⟩ := by
  induction outcomes with
  | nil => intro i s f; simp [runBatches, sumSent, sumFailed]
  | cons o rest ih =>
    intro i s f
    simp only [runBatches, if_true]
    rw [ih]
    simp [sumSent, sumFailed, List.range'_succ, Nat.add_assoc]

theorem sumSent_take_drop (l : List (Nat × Nat)) (k : Nat) :
    sumSent (l.take k) + sumSent (l.drop k) = sumSent l := by
  conv_rhs => rw [← List.take_append_drop k l]
  simp [sumSent]

theorem sumFailed_take_drop (l : List (Nat × Nat)) (k : Nat) :
    sumFailed (l.take k) + sumFailed (l.drop k) = sumFailed l := by
  conv_rhs => rw [← List.take_append_drop k l]
  simp [sumFailed]

/-- C2: resuming from a checkpoint recording `completed_batch_index = k`
whose sent/failed counts are the sums over the first `k` per-batch
outcomes (what the interrupted run had recorded) processes exactly the
batches with 0-based indices `k .. total-1` — 1-based `k+1 .. total` —
never re-attempts a batch with 0-based index below `k`, carries the
checkpointed counts forward, and ends with the same aggregate sent and
failed counts as a single uninterrupted run on the identical outcome
sequence (all checkpoint writes succeeding). -/
theorem C2_resume_equivalence (outcomes : List (Nat × Nat)) (cp : Checkpoint)
    (hk : cp.completed ≤ outcomes.length)
    (hs : cp.sent = sumSent (outcomes.take cp.completed))
    (hf : cp.failed = sumFailed (outcomes.take cp.completed)) :
    (sendAllNewsletters (fun _ => true) outcomes true cp).processed =
      List.range' cp.completed (outcomes.length - cp.completed) ∧
    (∀ i ∈ (sendAllNewsletters (fun _ => true) outcomes true cp).processed,
      cp.completed ≤ i) ∧
    (sendAllNewsletters (fun _ => true) outcomes true cp).sent =
      (sendAllNewsletters (fun _ => true) outcomes false cp).sent ∧
    (sendAllNewsletters (fun _ => true) outcomes true cp).failed =
      (sendAllNewsletters (fun _ => true) outcomes false cp).failed ∧
    (sendAllNewsletters (fun _ => true) outcomes true cp).crashed = none := by
  unfold sendAllNewsletters
  simp only [if_true, if_false, List.drop_zero]
  rw [runBatches_ok, runBatches_ok]
  refine ⟨by simp, ?_, ?_, ?_, rfl⟩
  · intro i hi
    simp only [List.mem_range'_1] at hi
    exact hi.1
  · show cp.sent + sumSent (outcomes.drop cp.completed) = 0 + sumSent outcomes
    rw [hs, sumSent_take_drop, Nat.zero_add]
  · show cp.failed + sumFailed (outcomes.drop cp.completed) = 0 + sumFailed outcomes
    rw [hf, sumFailed_take_drop, Nat.zero_add]

/-- Witness for C2 at a concrete input: three batches with outcomes
`(2,1), (3,0), (5,2)`, resuming from the checkpoint `(1, 2, 1)` taken after
the first batch. -/
theorem C2_resume_equivalence_witness :
    (sendAllNewsletters (fun _ => true) [(2, 1), (3, 0), (5, 2)] true ⟨1, 2, 1⟩).processed =
      List.range' 1 (3 - 1) ∧
    (∀ i ∈ (sendAllNewsletters (fun _ => true) [(2, 1), (3, 0), (5, 2)] true
        ⟨1, 2, 1⟩).processed, 1 ≤ i) ∧
    (sendAllNewsletters (fun _ => true) [(2, 1), (3, 0), (5, 2)] true ⟨1, 2, 1⟩).sent =
      (sendAllNewsletters (fun _ => true) [(2, 1), (3, 0), (5, 2)] false ⟨1, 2, 1⟩).sent ∧
    (sendAllNewsletters (fun _ => true) [(2, 1), (3, 0), (5, 2)] true ⟨1, 2, 1⟩).failed =
      (sendAllNewsletters (fun _ => true) [(2, 1), (3, 0), (5, 2)] false ⟨1, 2, 1⟩).failed ∧
    (sendAllNewsletters (fun _ => true) [(2, 1), (3, 0), (5, 2)] true ⟨1, 2, 1⟩).crashed =
      none := by
  have h := C2_resume_equivalence [(2, 1), (3, 0), (5, 2)] ⟨1, 2, 1⟩
    (by decide) (by decide) (by decide)
  simpa using h

/-- C8, counterexample: with an unwritable checkpoint file (every
`save_progress` call raises), a two-batch run crashes after the first
batch — the exception from the unguarded `open(...)`/`write` in
`save_progress` propagates through `send_all_newsletters` — and the second
batch is never processed, contradicting the claim that the run continues. -/
theorem C8_counterexample :
    (sendAllNewsletters (fun _ => false) [(1, 0), (1, 0)] false ⟨0, 0, 0⟩).crashed =
      some 0 ∧
    1 ∉ (sendAllNewsletters (fun _ => false) [(1, 0), (1, 0)] false ⟨0, 0, 0⟩).processed := by
  refine ⟨by decide, by decide⟩

/-- C8 (amended): when the checkpoint file is unwritable, the write failure
after the first batch raises an unhandled exception that aborts the
dispatch run; the first batch has been sent (and counted), and no further
batch is processed — the run does not continue without durable resume
capability. -/
theorem C8_save_failure_aborts (o : Nat × Nat) (outcomes : List (Nat × Nat)) :
    (sendAllNewsletters (fun _ => false) (o :: outcomes) false ⟨0, 0, 0⟩).crashed =
      some 0 ∧
    (sendAllNewsletters (fun _ => false) (o :: outcomes) false ⟨0, 0, 0⟩).processed =
      [0] ∧
    (sendAllNewsletters (fun _ => false) (o :: outcomes) false ⟨0, 0, 0⟩).sent = o.1 := by
  unfold sendAllNewsletters
  simp [runBatches]

/-! ## Endpoint resolution (C4)

`resolve_mx_with_timeout` (send.py lines 36–63) resolves a domain's MX
record set, sorts it by the `preference` field with Python's stable
`sorted`, and returns only `sorted(...)[0]` — the exchange hostname of the
single lowest-preference record, with surrounding dots stripped.  The
dispatch path (`prepare_and_send_batches` / `send_email_task`) connects
only to that one hostname.  An MX record is modelled as a
`(preference, exchange)` pair. -/

/-- Stable insertion by preference: an element is placed before every
element with a strictly greater key and after the existing elements with
an equal key appearing earlier, so the result is the stable sort computed
by Python's `sorted(mx_records, key=lambda rec: rec.preference)`. -/
def insortPref (x : Nat × String) : List (Nat × String) → List (Nat × String)
  | [] => [x]
  | y :: ys => if x.1 ≤ y.1 then x :: y :: ys else y :: insortPref x ys

/-- Stable sort of an MX record list by preference (the function computed by
Python's stable `sorted` with the `preference` key). -/
def sortByPref (l : List (Nat × String)) : List (Nat × String) :=
  l.foldr insortPref []

/-- Embedding of `resolve_mx_with_timeout` (send.py lines 36–63):
`mx_record = sorted(mx_records, key=lambda rec: rec.preference)[0]`,
`mx_server = str(mx_record.exchange).strip('.')`.  An empty record set
makes the `[0]` access raise, which the function re-raises; that is `none`. -/
def resolveMxWithTimeout (records : List (Nat × String)) : Option String :=
  match sortByPref records with
  | [] => none
  | r :: _ => some (stripDots r.2)

/-- The delivery-endpoint hostnames that dispatch ever attempts to connect
to for a domain: `prepare_and_send_batches` (send.py lines 230–249) passes
the single resolved `mx_server` to every `send_email_task` worker, and
`get_smtp_connection` (lines 65–175) connects only to that hostname. -/
def attemptedServers (records : List (Nat × String)) : List String :=
  match resolveMxWithTimeout records with
  | none => []
  | some s => [s]

/-- The first record with minimal preference, i.e. the head of the stable
sort: recursively, the earlier element wins ties. -/
def firstMinPref : List (Nat × String) → Option (Nat × String)
  | [] => none
  | x :: xs =>
    match firstMinPref xs with
    | none => some x
    | some m => some (if x.1 ≤ m.1 then x else m)

theorem sortByPref_eq_nil_iff (l : List (Nat × String)) :
    sortByPref l = [] ↔ l = [] := by
  induction l with
  | nil => simp [sortByPref]
  | cons x xs ih =>
    simp only [sortByPref, List.foldr_cons]
    constructor
    · intro h
      exfalso
      cases hs : List.foldr insortPref [] xs with
      | nil => rw [hs] at h; simp [insortPref] at h
      | cons y ys =>
        rw [hs] at h
        unfold insortPref at h
        split_ifs at h <;> simp at h
    · intro h
      simp at h

theorem firstMinPref_eq_none_iff (l : List (Nat × String)) :
    firstMinPref l = none ↔ l = [] := by
  cases l with
  | nil => simp [firstMinPref]
  | cons x xs =>
    unfold firstMinPref
    cases firstMinPref xs <;> simp

theorem sortByPref_head (l : List (Nat × String)) :
    (sortByPref l).head? = firstMinPref l := by
  induction l with
  | nil => simp [sortByPref, firstMinPref]
  | cons x xs ih =>
    simp only [sortByPref, List.foldr_cons] at ih ⊢
    unfold firstMinPref
    cases hs : List.foldr insortPref [] xs with
    | nil =>
      have hxs : xs = [] := (sortByPref_eq_nil_iff xs).mp hs
      subst hxs
      simp [insortPref, firstMinPref]
    | cons y ys =>
      have hy : firstMinPref xs = some y := by
        rw [← ih, hs]
        rfl
      rw [hy]
      unfold insortPref
      split_ifs with h <;> simp [h]

theorem firstMinPref_min :
    ∀ {l : List (Nat × String)} {m : Nat × String},
      firstMinPref l = some m → ∀ r ∈ l, m.1 ≤ r.1 := by
  intro l
  induction l with
  | nil => intro m hm; simp [firstMinPref] at hm
  | cons x xs ih =>
    intro m hm r hr
    unfold firstMinPref at hm
    cases hfm : firstMinPref xs with
    | none =>
      rw [hfm] at hm
      injection hm with hm
      subst hm
      have hxs : xs = [] := (firstMinPref_eq_none_iff xs).mp hfm
      subst hxs
      have : r = x := by simpa using hr
      subst this
      exact le_refl _
    | some mp =>
      rw [hfm] at hm
      injection hm with hm
      subst hm
      rcases List.mem_cons.mp hr with h | h
      · subst h
        split_ifs with hx
        · exact le_refl _
        · exact le_of_not_le hx
      · split_ifs with hx
        · exact le_trans hx (ih hfm r h)
        · exact ih hfm r h

theorem firstMinPref_first :
    ∀ {l : List (Nat × String)} {m : Nat × String},
      firstMinPref l = some m →
        ∃ i, l[i]? = some m ∧ ∀ r ∈ l.take i, m.1 < r.1 := by
  intro l
  induction l with
  | nil => intro m hm; simp [firstMinPref] at hm
  | cons x xs ih =>
    intro m hm
    unfold firstMinPref at hm
    cases hfm : firstMinPref xs with
    | none =>
      rw [hfm] at hm
      injection hm with hm
      subst hm
      exact ⟨0, by simp, by simp⟩
    | some mp =>
      rw [hfm] at hm
      injection hm with hm
      subst hm
      by_cases hx : x.1 ≤ mp.1
      · refine ⟨0, ?_, by simp⟩
        simp [if_pos hx]
      · obtain ⟨i, hi, hpre⟩ := ih hfm
        refine ⟨i + 1, ?_, ?_⟩
        · simpa [if_neg hx] using hi
        · intro r hr
          rw [List.take_succ_cons] at hr
          rcases List.mem_cons.mp hr with h | h
          · subst h
            rw [if_neg hx]
            exact lt_of_not_le hx
          · rw [if_neg hx]
            exact hpre r h

/-- C4, counterexample: for a domain advertising two MX records, the claim
that the resolver "returns an ordered, non-empty sequence containing all of
that domain's delivery endpoints" and that "delivery tries these candidates
in ascending priority order until one connects or all are exhausted" is
false: `resolve_mx_with_timeout` returns only the single lowest-preference
hostname, and dispatch connects only to it — the second endpoint is never a
candidate. -/
theorem C4_counterexample :
    resolveMxWithTimeout [(10, "alpha.example.de"), (20, "beta.example.de")] =
      some "alpha.example.de" ∧
    "beta.example.de" ∉
      attemptedServers [(10, "alpha.example.de"), (20, "beta.example.de")] := by
  refine ⟨by decide, by decide⟩

/-- C4 (amended): for every domain with at least one MX record, the resolver
returns exactly one hostname — the dot-stripped exchange of the record with
minimal preference, ties broken by first-seen order (every record before it
has strictly greater preference) — and delivery attempts only that single
endpoint. -/
theorem C4_resolver_single_endpoint (records : List (Nat × String))
    (h : records ≠ []) :
    ∃ m, firstMinPref records = some m ∧
      resolveMxWithTimeout records = some (stripDots m.2) ∧
      (∀ r ∈ records, m.1 ≤ r.1) ∧
      (∃ i, records[i]? = some m ∧ ∀ r ∈ records.take i, m.1 < r.1) ∧
      attemptedServers records = [stripDots m.2] := by
  obtain ⟨m, hm⟩ : ∃ m, firstMinPref records = some m := by
    cases hfm : firstMinPref records with
    | none => exact absurd ((firstMinPref_eq_none_iff records).mp hfm) h
    | some m => exact ⟨m, rfl⟩
  have hres : resolveMxWithTimeout records = some (stripDots m.2) := by
    unfold resolveMxWithTimeout
    cases hs : sortByPref records with
    | nil => exact absurd ((sortByPref_eq_nil_iff records).mp hs) h
    | cons r rest =>
      have hh : (sortByPref records).head? = some r := by
        rw [hs]
        rfl
      rw [sortByPref_head, hm] at hh
      injection hh with hh
      rw [hh]
  refine ⟨m, hm, hres, firstMinPref_min hm, firstMinPref_first hm, ?_⟩
  unfold attemptedServers
  rw [hres]

/-- Witness for C4 (amended) at a concrete input: a single-record domain. -/
theorem C4_resolver_single_endpoint_witness :
    ([((10 : Nat), "mx.example.de")] : List (Nat × String)) ≠ [] ∧
    (∃ m, firstMinPref [((10 : Nat), "mx.example.de")] = some m ∧
      resolveMxWithTimeout [((10 : Nat), "mx.example.de")] = some (stripDots m.2) ∧
      (∀ r ∈ [((10 : Nat), "mx.example.de")], m.1 ≤ r.1) ∧
      (∃ i, [((10 : Nat), "mx.example.de")][i]? = some m ∧
        ∀ r ∈ [((10 : Nat), "mx.example.de")].take i, m.1 < r.1) ∧
      attemptedServers [((10 : Nat), "mx.example.de")] = [stripDots m.2]) :=
  ⟨by decide, C4_resolver_single_endpoint [((10 : Nat), "mx.example.de")] (by decide)⟩

/-! ## Connection lifecycle in a dispatch worker (C7)

`send_email_task` (send.py lines 177–207) runs, per batch popped from the
queue: `server = get_smtp_connection(...)`, `server.ehlo(...)`, message
construction, `server.sendmail(...)`, `server.quit()`, wrapped in
`try/except ConnectionError/except SMTPException/except Exception` whose
handlers only log, and a `finally: q.task_done()` after which the worker
loops back to `q.get()`.  `server.quit()` appears only as the last
statement of the `try` body: no `finally` or context manager closes the
connection, so any exception raised after the connection is established
(e.g. `smtplib.SMTPException` from `sendmail`) skips `quit`.  We record
the connection-relevant events of one batch iteration as a trace. -/

/-- Connection events of one batch iteration of `send_email_task`. -/
inductive ConnEvent where
  | connect
  | ehlo
  | send
  | quit
  deriving DecidableEq, Repr

/-- How one batch iteration of `send_email_task` terminates:
`connectFail` — `get_smtp_connection` raised, no session established;
`sendFail` — the connection and handshake succeeded but `sendmail` raised
(`smtplib.SMTPException`, e.g. all recipients refused);
`success` — every step succeeded. -/
inductive BatchOutcome where
  | connectFail
  | sendFail
  | success
  deriving DecidableEq, Repr

/-- Event trace of one `send_email_task` iteration (send.py lines 183–207):
on `connectFail` the `except` handler logs and the loop continues; on
`sendFail` control jumps from `sendmail` to the `except smtplib.SMTPException`
handler, skipping the `server.quit()` line; only on `success` is
`server.quit()` reached. -/
def sendEmailTaskTrace : BatchOutcome → List ConnEvent
  | .connectFail => []
  | .sendFail => [.connect, .ehlo, .send]
  | .success => [.connect, .ehlo, .send, .quit]

/-- C7 (code bug): the claim — a connection opened by a worker is closed
before that worker requests its next unit of work on every outcome,
including an exception raised during sending — is the evident intent
(`verify_smtp` in verify.py calls `server.quit()` on every branch, and the
spec demands guaranteed release), but `send_email_task` has no
`finally`-close: when `sendmail` raises, the iteration's trace contains the
connection-establishing event and no `quit` event, so the worker returns to
the queue with the session still open.  On the success path `quit` is
present. -/
theorem C7_connection_leak_on_exception :
    ConnEvent.connect ∈ sendEmailTaskTrace BatchOutcome.sendFail ∧
    ConnEvent.quit ∉ sendEmailTaskTrace BatchOutcome.sendFail ∧
    ConnEvent.quit ∈ sendEmailTaskTrace BatchOutcome.success := by
  refine ⟨by decide, by decide, by decide⟩

/-! ## Recipient list loading and validation (C9)

`NewsletterGenerator.load_email_list` (newsletter_generator.py lines
93–110) reads the recipient file: each line is stripped; lines that are
blank or lack `'@'` are skipped; a kept line is split at the FIRST dot
(`line.split('.', 1)`) and only the part after that dot is appended when a
dot is present (intended to remove a leading `"123."` index prefix).
`NewsletterBatchSender.validate_emails` (batch_sender.py lines 73–85) then
keeps an entry when `'@' in addr and '.' in addr.split('@')[1]`, where
`addr` comes from `email.utils.parseaddr`; on a plain address string with
no display name or angle brackets `parseaddr` returns the string itself,
which is how the embedding models it. -/

/-- The characters after the first `'.'` (model of `line.split('.', 1)[1]`
when a dot is present). -/
def afterFirstDot (l : List Char) : List Char :=
  (l.dropWhile (fun c => c != '.')).tail

/-- Per-line transformation of `load_email_list`: keep the part after the
first dot when the line contains one, otherwise the whole line. -/
def extractEmail (line : String) : String :=
  if line.data.contains '.' then ⟨afterFirstDot line.data⟩ else line

/-- Embedding of `NewsletterGenerator.load_email_list`. -/
def loadEmailList : List String → List String
  | [] => []
  | line :: rest =>
    if !(pyStrip line == "") && (pyStrip line).data.contains '@' then
      extractEmail (pyStrip line) :: loadEmailList rest
    else loadEmailList rest

/-- The domain part of an address: the characters between the first and
second `'@'` (model of `addr.split('@')[1]`). -/
def domainPart (l : List Char) : List Char :=
  ((l.dropWhile (fun c => c != '@')).tail).takeWhile (fun c => c != '@')

/-- Embedding of `NewsletterBatchSender.validate_emails`. -/
def validateEmails : List String → List String
  | [] => []
  | e :: rest =>
    if e.data.contains '@' && (domainPart e.data).contains '.' then
      e :: validateEmails rest
    else validateEmails rest

theorem loadEmailList_eq (lines : List String) :
    loadEmailList lines =
      ((lines.map pyStrip).filter
        (fun l => !(l == "") && l.data.contains '@')).map extractEmail := by
  induction lines with
  | nil => rfl
  | cons line rest ih =>
    simp only [List.map_cons, List.filter_cons]
    cases h : (!(pyStrip line == "") && (pyStrip line).data.contains '@') with
    | false =>
      simp [loadEmailList, h, ih]
      simpa using h
    | true =>
      simp [loadEmailList, h, ih]
      simpa using h

theorem validateEmails_eq (l : List String) :
    validateEmails l =
      l.filter (fun e => e.data.contains '@' && (domainPart e.data).contains '.') := by
  induction l with
  | nil => rfl
  | cons e rest ih =>
    simp only [List.filter_cons]
    cases h : (e.data.contains '@' && (domainPart e.data).contains '.') with
    | false =>
      simp [validateEmails, h, ih]
      simpa using h
    | true =>
      simp [validateEmails, h, ih]
      simpa using h

/-- C9, counterexample: the claim that each well-formed address is "kept
unchanged" is false.  The non-blank, well-formed line
`"john.doe@example.com"` (it contains `'@'` and a dotted domain) is loaded
as `"doe@example.com"`: `load_email_list` splits at the first dot and keeps
only the tail, mangling any address with a dot before the `'@'`. -/
theorem C9_counterexample :
    validateEmails (loadEmailList ["john.doe@example.com"]) = ["doe@example.com"] ∧
    "john.doe@example.com" ∉ validateEmails (loadEmailList ["john.doe@example.com"]) := by
  refine ⟨by decide, by decide⟩

/-- C9 (amended): the list used for dispatch consists exactly of the file's
non-blank (after stripping) lines that contain `'@'`, each transformed by
removing everything up to and including its FIRST `'.'` when one is present
(the index-prefix removal of `load_email_list`), then filtered to those
transformed entries that contain `'@'` and a `'.'` in the domain part;
original order is preserved, and the filtering is a non-fatal count. -/
theorem C9_dispatch_list_characterization (lines : List String) :
    validateEmails (loadEmailList lines) =
      (((lines.map pyStrip).filter
          (fun l => !(l == "") && l.data.contains '@')).map extractEmail).filter
        (fun e => e.data.contains '@' && (domainPart e.data).contains '.') := by
  rw [loadEmailList_eq, validateEmails_eq]

/-! ## Recipient Validation State Machine (C6, C10)

`EmailVerifier.verify_email` (verify.py lines 164–229) runs, per address:
format check → `check_domain_exists` → `check_mx_record` → `verify_smtp`,
stopping at the first failing step and filing the address into exactly one
bucket — except the early format return (lines 169–176), which files the
address nowhere.  The DNS and SMTP answers of the environment are supplied
by an oracle. -/

/-- Result of the A-record lookup in `check_domain_exists` (verify.py
lines 63–84). -/
inductive AResult where
  | ok
  | nxdomain
  | noAnswer
  | timeout
  | otherError
  deriving DecidableEq, Repr

/-- Oracle for `verify_smtp` (verify.py lines 115–162): whether
connect/EHLO succeed without raising, the `MAIL FROM` response code, and
the `RCPT TO` response code and message. -/
structure SmtpWorld where
  connectOk : Bool
  mailCode : Nat
  rcptCode : Nat
  rcptMessage : String
  deriving DecidableEq, Repr

/-- Oracle describing the environment's answers for one address' domain:
the A-record outcome, the MX record set (`none` when the MX lookup
raises), and the SMTP probe answers. -/
structure DnsWorld where
  aResult : AResult
  mxResult : Option (List (Nat × String))
  smtp : SmtpWorld
  deriving DecidableEq, Repr

/-- Embedding of `EmailVerifier.check_domain_exists` (verify.py lines
63–84): A records found → exists; NXDOMAIN/timeout/other error → does not
exist; NoAnswer → exists iff the direct MX lookup succeeds. -/
def checkDomainExists (w : DnsWorld) : Bool :=
  match w.aResult with
  | .ok => true
  | .nxdomain => false
  | .noAnswer => w.mxResult.isSome
  | .timeout => false
  | .otherError => false

/-- Embedding of `EmailVerifier.check_mx_record` (verify.py lines 86–113):
the MX lookup must succeed with exactly one record
(`if len(mx_list) != 1` rejects), and its dot-stripped, lowercased
exchange must equal `"smtpin.rzone.de"`; `some mx` is the accepted server
name, `none` any failure. -/
def checkMxRecord (w : DnsWorld) : Option String :=
  match w.mxResult with
  | none => none
  | some [r] =>
    if lowerStr (stripDots r.2) = "smtpin.rzone.de" then
      some (lowerStr (stripDots r.2))
    else none
  | some _ => none

/-- Embedding of `EmailVerifier.verify_smtp` (verify.py lines 115–162):
a connect/EHLO failure or transport exception gives status `"error"`;
`MAIL FROM` must answer 250; the `RCPT TO` response is classified by
`classifyRcpt`. -/
def verifySmtp (sw : SmtpWorld) : RcptCategory :=
  if !sw.connectOk then .error
  else if sw.mailCode ≠ 250 then .error
  else classifyRcpt sw.rcptCode sw.rcptMessage

/-- The six result buckets of `EmailVerifier.verify_email`. -/
inductive VerifyCategory where
  | valid
  | invalid_domain
  | invalid_mx
  | over_quota
  | insufficient_storage
  | other_error
  deriving DecidableEq, Repr

/-- The probe steps the validation pipeline can perform: DNS domain check,
MX (endpoint) check, SMTP connection probe. -/
inductive VStep where
  | domainCheck
  | mxCheck
  | smtpConnect
  deriving DecidableEq, Repr

/-- The bucket `verify_email` (verify.py lines 204–229) chooses from a
`verify_smtp` status. -/
def smtpStatusBucket : RcptCategory → VerifyCategory
  | .over_quota => .over_quota
  | .insufficient_storage => .insufficient_storage
  | .error => .other_error
  | .valid => .valid

/-- Embedding of `EmailVerifier.verify_email` (verify.py lines 164–229),
instrumented with the sequence of probe steps performed.  The address is
stripped; a blank or `'@'`-less address returns status `"error"` WITHOUT
filing the address into any bucket or counter (the early return at lines
169–176), modelled by `none`; otherwise the pipeline short-circuits at the
first failing step. -/
def verifyEmail (w : DnsWorld) (email : String) :
    Option VerifyCategory × List VStep :=
  if pyStrip email == "" || !(pyStrip email).data.contains '@' then (none, [])
  else if !checkDomainExists w then (some .invalid_domain, [.domainCheck])
  else
    match checkMxRecord w with
    | none => (some .invalid_mx, [.domainCheck, .mxCheck])
    | some _ =>
      (some (smtpStatusBucket (verifySmtp w.smtp)),
        [.domainCheck, .mxCheck, .smtpConnect])

/-- C6: the validation pipeline is strictly sequential and short-circuits.
For a well-formed address (non-blank, contains `'@'`): if the domain check
fails the address is filed `invalid_domain` and neither the MX (endpoint)
check nor any SMTP connection is attempted; and if the domain resolves but
its MX record set has a number of records different from one, the address
is filed `invalid_mx` (the spec's InvalidEndpoint) with no SMTP connection
attempt. -/
theorem C6_short_circuit (w : DnsWorld) (email : String)
    (hfmt : (pyStrip email == "" || !(pyStrip email).data.contains '@') = false) :
    (checkDomainExists w = false →
      verifyEmail w email = (some .invalid_domain, [.domainCheck]) ∧
      VStep.mxCheck ∉ (verifyEmail w email).2 ∧
      VStep.smtpConnect ∉ (verifyEmail w email).2) ∧
    (∀ records, checkDomainExists w = true → w.mxResult = some records →
      records.length ≠ 1 →
      (verifyEmail w email).1 = some .invalid_mx ∧
      VStep.smtpConnect ∉ (verifyEmail w email).2) := by
  constructor
  · intro hd
    have he : verifyEmail w email = (some .invalid_domain, [.domainCheck]) := by
      unfold verifyEmail
      rw [hfmt, hd]
      simp
    refine ⟨he, ?_, ?_⟩ <;> rw [he] <;> decide
  · intro records hd hmx hlen
    have hmxr : checkMxRecord w = none := by
      unfold checkMxRecord
      rw [hmx]
      match records, hlen with
      | [], _ => rfl
      | [r], h => simp at h
      | r1 :: r2 :: rs, _ => rfl
    have he : verifyEmail w email = (some .invalid_mx, [.domainCheck, .mxCheck]) := by
      unfold verifyEmail
      rw [hfmt, hd, hmxr]
      simp
    refine ⟨by rw [he], ?_⟩
    rw [he]
    decide

/-- Witness for C6 at concrete inputs: the address `"user@example.de"`,
first with a domain whose A lookup answers NXDOMAIN, then with a resolving
domain advertising two MX records. -/
theorem C6_short_circuit_witness :
    (verifyEmail ⟨.nxdomain, none, ⟨true, 250, 250, ""⟩⟩ "user@example.de" =
        (some .invalid_domain, [.domainCheck]) ∧
      VStep.mxCheck ∉
        (verifyEmail ⟨.nxdomain, none, ⟨true, 250, 250, ""⟩⟩ "user@example.de").2 ∧
      VStep.smtpConnect ∉
        (verifyEmail ⟨.nxdomain, none, ⟨true, 250, 250, ""⟩⟩ "user@example.de").2) ∧
    ((verifyEmail ⟨.ok, some [(10, "mx1.example.de"), (20, "mx2.example.de")],
          ⟨true, 250, 250, ""⟩⟩ "user@example.de").1 = some .invalid_mx ∧
      VStep.smtpConnect ∉
        (verifyEmail ⟨.ok, some [(10, "mx1.example.de"), (20, "mx2.example.de")],
          ⟨true, 250, 250, ""⟩⟩ "user@example.de").2) :=
  ⟨(C6_short_circuit ⟨.nxdomain, none, ⟨true, 250, 250, ""⟩⟩ "user@example.de"
      (by decide)).1 (by decide),
   (C6_short_circuit ⟨.ok, some [(10, "mx1.example.de"), (20, "mx2.example.de")],
      ⟨true, 250, 250, ""⟩⟩ "user@example.de" (by decide)).2
     [(10, "mx1.example.de"), (20, "mx2.example.de")] (by decide) rfl (by decide)⟩

/-- The counters of `EmailVerificationStats` (verify.py lines 16–45). -/
structure VStats where
  total : Nat
  valid : Nat
  invalid_domain : Nat
  invalid_mx : Nat
  over_quota : Nat
  insufficient_storage : Nat
  other_errors : Nat
  deriving DecidableEq, Repr

/-- The six `results` category lists of `EmailVerifier` (verify.py lines
54–61). -/
structure VResults where
  valid : List String
  invalid_domain : List String
  invalid_mx : List String
  over_quota : List String
  insufficient_storage : List String
  other_errors : List String
  deriving DecidableEq, Repr

/-- The empty `results` dictionary. -/
def emptyResults : VResults := ⟨[], [], [], [], [], []⟩

/-- The bucket update one `verify_email` call performs (verify.py lines
184–229): exactly one counter incremented and the address appended to the
matching list — or, on the early format return, nothing at all. -/
def recordOutcome (acc : VStats × VResults) (email : String) :
    Option VerifyCategory → VStats × VResults
  | none => acc
  | some .valid =>
    ({acc.1 with valid := acc.1.valid + 1},
     {acc.2 with valid := acc.2.valid ++ [email]})
  | some .invalid_domain =>
    ({acc.1 with invalid_domain := acc.1.invalid_domain + 1},
     {acc.2 with invalid_domain := acc.2.invalid_domain ++ [email]})
  | some .invalid_mx =>
    ({acc.1 with invalid_mx := acc.1.invalid_mx + 1},
     {acc.2 with invalid_mx := acc.2.invalid_mx ++ [email]})
  | some .over_quota =>
    ({acc.1 with over_quota := acc.1.over_quota + 1},
     {acc.2 with over_quota := acc.2.over_quota ++ [email]})
  | some .insufficient_storage =>
    ({acc.1 with insufficient_storage := acc.1.insufficient_storage + 1},
     {acc.2 with insufficient_storage := acc.2.insufficient_storage ++ [email]})
  | some .other_error =>
    ({acc.1 with other_errors := acc.1.other_errors + 1},
     {acc.2 with other_errors := acc.2.other_errors ++ [email]})

/-- Embedding of `EmailVerifier.verify_emails_from_file` (verify.py lines
231–257): the file's lines are stripped and blank lines dropped
(`[line.strip() for line in f if line.strip()]`), `stats.total` is set to
the number of remaining addresses before the loop, and each address is
passed through `verify_email`; `w` supplies the DNS/SMTP oracle per
address. -/
def verifyEmailsFromFile (w : String → DnsWorld) (lines : List String) :
    VStats × VResults :=
  let emails := (lines.map pyStrip).filter (fun l => !(l == ""))
  emails.foldl (fun acc e => recordOutcome acc e (verifyEmail (w e) e).1)
    (⟨emails.length, 0, 0, 0, 0, 0, 0⟩, emptyResults)

/-- Sum of the six category counters. -/
def sumSix (st : VStats) : Nat :=
  st.valid + st.invalid_domain + st.invalid_mx + st.over_quota +
    st.insufficient_storage + st.other_errors

/-- Total number of addresses filed across the six category lists. -/
def sumLens (rs : VResults) : Nat :=
  rs.valid.length + rs.invalid_domain.length + rs.invalid_mx.length +
    rs.over_quota.length + rs.insufficient_storage.length +
    rs.other_errors.length

/-- A stripped address is well-formed for `verify_email`: non-blank and
containing `'@'`. -/
def wfAddr (e : String) : Bool :=
  !(pyStrip e == "") && (pyStrip e).data.contains '@'

theorem verifyEmail_fst_none (w : DnsWorld) (e : String) (h : wfAddr e = false) :
    (verifyEmail w e).1 = none := by
  unfold verifyEmail
  have hc : (pyStrip e == "" || !(pyStrip e).data.contains '@') = true := by
    unfold wfAddr at h
    cases h1 : (pyStrip e == "") <;> cases h2 : (pyStrip e).data.contains '@' <;>
      simp_all
  rw [hc]
  rfl

theorem verifyEmail_fst_some (w : DnsWorld) (e : String) (h : wfAddr e = true) :
    ∃ c, (verifyEmail w e).1 = some c := by
  unfold verifyEmail
  have hc : (pyStrip e == "" || !(pyStrip e).data.contains '@') = false := by
    unfold wfAddr at h
    cases h1 : (pyStrip e == "") <;> cases h2 : (pyStrip e).data.contains '@' <;>
      simp_all
  rw [hc]
  simp only [Bool.false_eq_true, if_false]
  cases checkDomainExists w
  · exact ⟨_, rfl⟩
  · cases checkMxRecord w
    · exact ⟨_, rfl⟩
    · exact ⟨_, rfl⟩

theorem recordOutcome_some (acc : VStats × VResults) (e : String)
    (c : VerifyCategory) :
    sumSix (recordOutcome acc e (some c)).1 = sumSix acc.1 + 1 ∧
    sumLens (recordOutcome acc e (some c)).2 = sumLens acc.2 + 1 ∧
    (recordOutcome acc e (some c)).1.total = acc.1.total := by
  cases c <;> simp [recordOutcome, sumSix, sumLens] <;> omega

theorem verifyFold_invariant (w : String → DnsWorld) :
    ∀ (emails : List String) (acc : VStats × VResults),
      sumSix (emails.foldl
          (fun a e => recordOutcome a e (verifyEmail (w e) e).1) acc).1 =
        sumSix acc.1 + (emails.filter wfAddr).length ∧
      sumLens (emails.foldl
          (fun a e => recordOutcome a e (verifyEmail (w e) e).1) acc).2 =
        sumLens acc.2 + (emails.filter wfAddr).length ∧
      (emails.foldl
          (fun a e => recordOutcome a e (verifyEmail (w e) e).1) acc).1.total =
        acc.1.total := by
  intro emails
  induction emails with
  | nil => intro acc; simp
  | cons e rest ih =>
    intro acc
    simp only [List.foldl_cons, List.filter_cons]
    cases hwf : wfAddr e with
    | false =>
      rw [verifyEmail_fst_none (w e) e hwf]
      simpa [recordOutcome] using ih acc
    | true =>
      obtain ⟨c, hc⟩ := verifyEmail_fst_some (w e) e hwf
      rw [hc]
      obtain ⟨hs, hl, ht⟩ := recordOutcome_some acc e c
      obtain ⟨ihs, ihl, iht⟩ := ih (recordOutcome acc e (some c))
      refine ⟨?_, ?_, ?_⟩
      · rw [ihs, hs]
        simp
        omega
      · rw [ihl, hl]
        simp
        omega
      · rw [iht, ht]

/-- C10, counterexample: the claim that the six category counters sum to
`stats.total` is false.  For a file whose single non-blank line is
`"foo"` (no `'@'`), `verify_email` takes the early format return without
incrementing any counter, so `total = 1` while the six counters sum to
`0`. -/
theorem C10_counterexample :
    (verifyEmailsFromFile
        (fun _ => ⟨AResult.ok, none, ⟨true, 250, 250, ""⟩⟩) ["foo"]).1.total = 1 ∧
    sumSix (verifyEmailsFromFile
        (fun _ => ⟨AResult.ok, none, ⟨true, 250, 250, ""⟩⟩) ["foo"]).1 = 0 := by
  refine ⟨by decide, by decide⟩

/-- C10 (amended): after `verify_emails_from_file`, `stats.total` is the
number of non-blank lines; every processed address is appended to at most
one category list (exactly one when it contains `'@'`, none otherwise);
and the six category counters — and likewise the six list lengths — sum to
the number of non-blank lines that contain `'@'` (addresses without `'@'`
are counted in `total` but filed nowhere). -/
theorem C10_stats_invariant (w : String → DnsWorld) (lines : List String) :
    (verifyEmailsFromFile w lines).1.total =
      ((lines.map pyStrip).filter (fun l => !(l == ""))).length ∧
    sumSix (verifyEmailsFromFile w lines).1 =
      (((lines.map pyStrip).filter (fun l => !(l == ""))).filter wfAddr).length ∧
    sumLens (verifyEmailsFromFile w lines).2 =
      (((lines.map pyStrip).filter (fun l => !(l == ""))).filter wfAddr).length := by
  unfold verifyEmailsFromFile
  obtain ⟨hs, hl, ht⟩ := verifyFold_invariant w
    ((lines.map pyStrip).filter (fun l => !(l == "")))
    (⟨((lines.map pyStrip).filter (fun l => !(l == ""))).length, 0, 0, 0, 0, 0, 0⟩,
      emptyResults)
  refine ⟨ht, ?_, ?_⟩
  · rw [hs]
    simp [sumSix]
  · rw [hl]
    simp [sumLens, emptyResults]
